import Mathlib

/-
Verification of the lightsim2grid power-flow facade (`GridModel`) against its
specification.  The definitions below are a shallow embedding of
src/src/GridModel.cpp and src/src/GridModel.h: machine doubles are modelled by
rationals, Eigen vectors by lists, and the element collections whose code is
not part of this subtree (DataGen, DataLoad, ...) are either kept opaque or
modelled from the specification text (each such definition says so in its doc
comment).
-/

set_option maxHeartbeats 1000000

/-! ## Bus index mapper (GridModel::init_Ybus, lines 245-257)

The C++ loop walks the external buses in order; every connected bus receives
the next dense solver index, every disconnected bus keeps the sentinel `-1`
(`_deactivated_bus_id`).  `me` is the external bus counter (`bus_id_me`) and
`solver` the dense counter (`bus_id_solver`); the branch on the list head is
the `if(bus_status_[bus_id_me])` test. -/

def init_Ybus_buses : List Bool → ℕ → ℕ → List Int × List ℕ
  | [], _, _ => ([], [])
  | true :: rest, me, solver =>
    let r := init_Ybus_buses rest (me + 1) (solver + 1)
    ((solver : Int) :: r.1, me :: r.2)
  | false :: rest, me, solver =>
    let r := init_Ybus_buses rest (me + 1) solver
    (-1 :: r.1, r.2)

/-- The two conversion maps built at the start of `GridModel::init_Ybus`:
`id_me_to_solver` (first component) and `id_solver_to_me` (second). -/
def init_Ybus_maps (bus_status : List Bool) : List Int × List ℕ :=
  init_Ybus_buses bus_status 0 0

theorem iyb_fst_length (bs : List Bool) : ∀ me k : ℕ,
    (init_Ybus_buses bs me k).1.length = bs.length := by
  induction bs with
  | nil => intro me k; rfl
  | cons b rest ih =>
    intro me k
    cases b <;> simp [init_Ybus_buses, ih]

theorem iyb_snd_length (bs : List Bool) : ∀ me k : ℕ,
    (init_Ybus_buses bs me k).2.length = bs.countP (fun b => b) := by
  induction bs with
  | nil => intro me k; rfl
  | cons b rest ih =>
    intro me k
    cases b <;> simp [init_Ybus_buses, ih, List.countP_cons]

theorem iyb_fst_true (bs : List Bool) : ∀ (i me k : ℕ), i < bs.length →
    bs.getD i false = true →
    (init_Ybus_buses bs me k).1.getD i 0 = ((k + (bs.take i).countP (fun b => b) : ℕ) : Int) := by
  induction bs with
  | nil => intro i me k hi; simp at hi
  | cons b rest ih =>
    intro i me k hi hb
    cases i with
    | zero =>
      cases b with
      | false => simp [List.getD_cons_zero] at hb
      | true => simp [init_Ybus_buses, List.getD_cons_zero]
    | succ j =>
      have hj : j < rest.length := by simpa using hi
      have hbj : rest.getD j false = true := by simpa [List.getD_cons_succ] using hb
      cases b with
      | false =>
        have h := ih j (me + 1) k hj hbj
        simp only [init_Ybus_buses, List.getD_cons_succ, List.take_succ_cons,
                   List.countP_cons]
        simp only [h]
        norm_num
      | true =>
        have h := ih j (me + 1) (k + 1) hj hbj
        simp only [init_Ybus_buses, List.getD_cons_succ, List.take_succ_cons,
                   List.countP_cons]
        simp only [h]
        norm_num
        omega

theorem iyb_fst_false (bs : List Bool) : ∀ (i me k : ℕ), i < bs.length →
    bs.getD i false = false →
    (init_Ybus_buses bs me k).1.getD i 0 = -1 := by
  induction bs with
  | nil => intro i me k hi; simp at hi
  | cons b rest ih =>
    intro i me k hi hb
    cases i with
    | zero =>
      cases b with
      | true => simp [List.getD_cons_zero] at hb
      | false => simp [init_Ybus_buses, List.getD_cons_zero]
    | succ j =>
      have hj : j < rest.length := by simpa using hi
      have hbj : rest.getD j false = false := by simpa [List.getD_cons_succ] using hb
      cases b with
      | false =>
        simpa [init_Ybus_buses, List.getD_cons_succ] using ih j (me + 1) k hj hbj
      | true =>
        simpa [init_Ybus_buses, List.getD_cons_succ] using ih j (me + 1) (k + 1) hj hbj

theorem iyb_snd_mem (bs : List Bool) : ∀ (me k : ℕ) (x : ℕ),
    x ∈ (init_Ybus_buses bs me k).2 ↔
      ∃ j, j < bs.length ∧ bs.getD j false = true ∧ x = me + j := by
  induction bs with
  | nil =>
    intro me k x
    simp [init_Ybus_buses]
  | cons b rest ih =>
    intro me k x
    cases b with
    | true =>
      simp only [init_Ybus_buses, List.mem_cons]
      rw [ih (me + 1) (k + 1) x]
      constructor
      · rintro (rfl | ⟨j, hj, hb, rfl⟩)
        · exact ⟨0, by simp, by simp [List.getD_cons_zero], by omega⟩
        · exact ⟨j + 1, by simpa using hj, by simpa [List.getD_cons_succ] using hb, by omega⟩
      · rintro ⟨j, hj, hb, rfl⟩
        cases j with
        | zero => left; omega
        | succ j' =>
          right
          exact ⟨j', by simpa using hj, by simpa [List.getD_cons_succ] using hb, by omega⟩
    | false =>
      simp only [init_Ybus_buses]
      rw [ih (me + 1) k x]
      constructor
      · rintro ⟨j, hj, hb, rfl⟩
        exact ⟨j + 1, by simpa using hj, by simpa [List.getD_cons_succ] using hb, by omega⟩
      · rintro ⟨j, hj, hb, rfl⟩
        cases j with
        | zero => simp [List.getD_cons_zero] at hb
        | succ j' =>
          exact ⟨j', by simpa using hj, by simpa [List.getD_cons_succ] using hb, by omega⟩

theorem iyb_snd_sorted (bs : List Bool) : ∀ me k : ℕ,
    List.Sorted (· < ·) (init_Ybus_buses bs me k).2 := by
  induction bs with
  | nil => intro me k; simp [init_Ybus_buses]
  | cons b rest ih =>
    intro me k
    cases b with
    | false => simpa [init_Ybus_buses] using ih (me + 1) k
    | true =>
      simp only [init_Ybus_buses]
      rw [List.sorted_cons]
      refine ⟨?_, ih (me + 1) (k + 1)⟩
      intro x hx
      obtain ⟨j, _, _, rfl⟩ := (iyb_snd_mem rest (me + 1) (k + 1) x).mp hx
      omega

theorem iyb_snd_getD (bs : List Bool) : ∀ (i me k : ℕ), i < bs.length →
    bs.getD i false = true →
    (init_Ybus_buses bs me k).2.getD ((bs.take i).countP (fun b => b)) 0 = me + i := by
  induction bs with
  | nil => intro i me k hi; simp at hi
  | cons b rest ih =>
    intro i me k hi hb
    cases i with
    | zero =>
      cases b with
      | false => simp [List.getD_cons_zero] at hb
      | true => simp [init_Ybus_buses, List.getD_cons_zero]
    | succ j =>
      have hj : j < rest.length := by simpa using hi
      have hbj : rest.getD j false = true := by simpa [List.getD_cons_succ] using hb
      have hadd : me + (j + 1) = me + 1 + j := by omega
      cases b with
      | false =>
        have h := ih j (me + 1) k hj hbj
        simp only [init_Ybus_buses, List.take_succ_cons, List.countP_cons]
        rw [hadd]
        simpa using h
      | true =>
        have h := ih j (me + 1) (k + 1) hj hbj
        simp only [init_Ybus_buses, List.take_succ_cons, List.countP_cons]
        rw [hadd]
        norm_num
        simpa [List.getD_cons_succ] using h

theorem count_take_lt (bs : List Bool) : ∀ i, i < bs.length →
    bs.getD i false = true →
    (bs.take i).countP (fun b => b) < bs.countP (fun b => b) := by
  induction bs with
  | nil => intro i hi; simp at hi
  | cons b rest ih =>
    intro i hi hb
    cases i with
    | zero =>
      cases b with
      | false => simp [List.getD_cons_zero] at hb
      | true => simp [List.countP_cons]
    | succ j =>
      have hj : j < rest.length := by simpa using hi
      have hbj : rest.getD j false = true := by simpa [List.getD_cons_succ] using hb
      have h := ih j hj hbj
      simp only [List.take_succ_cons, List.countP_cons]
      omega

/-- C1: whenever the bus index maps are rebuilt (`GridModel::init_Ybus` called from
`pre_process_solver`), `id_me_to_solver` assigns every connected external bus a
dense solver index in `[0, K)` with `id_solver_to_me[id_me_to_solver[i]] = i`,
every disconnected bus gets `-1`, and `id_solver_to_me` has length `K` (the
number of connected buses) and lists the connected external ids in increasing
order. -/
theorem init_Ybus_maps_bijection (bs : List Bool) :
    (init_Ybus_maps bs).1.length = bs.length ∧
    (init_Ybus_maps bs).2.length = bs.countP (fun b => b) ∧
    List.Sorted (· < ·) (init_Ybus_maps bs).2 ∧
    (∀ x, x ∈ (init_Ybus_maps bs).2 ↔ x < bs.length ∧ bs.getD x false = true) ∧
    (∀ i, i < bs.length → bs.getD i false = true →
      0 ≤ (init_Ybus_maps bs).1.getD i 0 ∧
      ((init_Ybus_maps bs).1.getD i 0).toNat < (init_Ybus_maps bs).2.length ∧
      (init_Ybus_maps bs).2.getD ((init_Ybus_maps bs).1.getD i 0).toNat 0 = i) ∧
    (∀ i, i < bs.length → bs.getD i false = false →
      (init_Ybus_maps bs).1.getD i 0 = -1) := by
  refine ⟨iyb_fst_length bs 0 0, iyb_snd_length bs 0 0, iyb_snd_sorted bs 0 0, ?_, ?_, ?_⟩
  · intro x
    rw [init_Ybus_maps, iyb_snd_mem bs 0 0 x]
    constructor
    · rintro ⟨j, hj, hb, rfl⟩
      have h0 : (0 : ℕ) + j = j := by omega
      rw [h0]
      exact ⟨hj, hb⟩
    · rintro ⟨hx, hb⟩; exact ⟨x, hx, hb, by omega⟩
  · intro i hi hb
    have hv := iyb_fst_true bs i 0 0 hi hb
    rw [init_Ybus_maps, hv]
    refine ⟨by positivity, ?_, ?_⟩
    · rw [Int.toNat_natCast, iyb_snd_length bs 0 0]
      simpa using count_take_lt bs i hi hb
    · rw [Int.toNat_natCast]
      simpa using iyb_snd_getD bs i 0 0 hi hb
  · intro i hi hb
    exact iyb_fst_false bs i 0 0 hi hb

theorem init_Ybus_maps_bijection_witness :
    0 ≤ (init_Ybus_maps [true, false, true]).1.getD 2 0 ∧
    ((init_Ybus_maps [true, false, true]).1.getD 2 0).toNat <
      (init_Ybus_maps [true, false, true]).2.length ∧
    (init_Ybus_maps [true, false, true]).2.getD
      ((init_Ybus_maps [true, false, true]).1.getD 2 0).toNat 0 = 2 :=
  (init_Ybus_maps_bijection [true, false, true]).2.2.2.2.1 2 (by decide) (by decide)

/-! ## Bus classifier (GridModel::fillpv_pq, lines 303-328)

The PV pass and the PQ loop share one shape: visit a candidate solver bus,
skip it when it is the slack bus (`bus_id == slack_bus_id_solver_`) or when it
was already classified (`has_bus_been_added[bus_id]`), otherwise record it and
mark the flag.  `add_unclassified` is that shape; the source's PQ loop at
lines 320-325 is `add_unclassified (List.range K)`. -/

def add_unclassified : List ℕ → List Bool → ℕ → List ℕ × List Bool
  | [], has, _ => ([], has)
  | b :: rest, has, slack =>
    if b = slack then add_unclassified rest has slack
    else if has.getD b false then add_unclassified rest has slack
    else
      let r := add_unclassified rest (has.set b true) slack
      (b :: r.1, r.2)

/-- Modelled from the spec: the per-element `classify_pv` primitive
(`DataGen::fillpv` and the no-op versions of the other families are not in
this subtree).  Section 4.1: "for generators, mark their bus as PV unless it
is the slack bus", guarded by the `already_classified` flags shared with the
PQ loop.  `gen_buses` is the list of solver bus ids of the active
generators. -/
def fillpv_gens (gen_buses : List ℕ) (has : List Bool) (slack : ℕ) : List ℕ × List Bool :=
  add_unclassified gen_buses has slack

/-- `GridModel::fillpv_pq`: classify the `K` solver buses into PV (generator
buses, via the element `fillpv` callbacks) and PQ (every remaining non-slack
bus, lines 320-325). -/
def fillpv_pq (K : ℕ) (gen_buses : List ℕ) (slack : ℕ) : List ℕ × List ℕ :=
  let has0 := List.replicate K false
  let pv := fillpv_gens gen_buses has0 slack
  let pq := add_unclassified (List.range K) pv.2 slack
  (pv.1, pq.1)

theorem getD_set_self (l : List Bool) (i : ℕ) (h : i < l.length) (a : Bool) :
    (l.set i a).getD i false = a := by
  simp [List.getD, List.getElem?_set, h]

theorem getD_set_ne (l : List Bool) {i j : ℕ} (h : i ≠ j) (a : Bool) :
    (l.set i a).getD j false = l.getD j false := by
  simp [List.getD, List.getElem?_set, h]

theorem add_unclassified_spec (l : List ℕ) : ∀ (has : List Bool) (slack : ℕ),
    (∀ b ∈ l, b < has.length) →
    (add_unclassified l has slack).2.length = has.length ∧
    (add_unclassified l has slack).1.Nodup ∧
    (∀ b ∈ (add_unclassified l has slack).1,
        b ∈ l ∧ b ≠ slack ∧ has.getD b false = false) ∧
    (∀ j, ((add_unclassified l has slack).2.getD j false = true ↔
        (has.getD j false = true ∨ j ∈ (add_unclassified l has slack).1))) ∧
    (∀ b ∈ l, b ≠ slack → has.getD b false = false →
        b ∈ (add_unclassified l has slack).1) := by
  induction l with
  | nil =>
    intro has slack _
    refine ⟨rfl, List.nodup_nil, by simp [add_unclassified], ?_, by simp [add_unclassified]⟩
    intro j; simp [add_unclassified]
  | cons b rest ih =>
    intro has slack hlt
    have hb_lt : b < has.length := hlt b (List.mem_cons_self b rest)
    have hrest : ∀ c ∈ rest, c < has.length := fun c hc => hlt c (List.mem_cons_of_mem b hc)
    by_cases hslack : b = slack
    · have hred : add_unclassified (b :: rest) has slack = add_unclassified rest has slack := by
        simp [add_unclassified, hslack]
      obtain ⟨H1, H2, H3, H4, H5⟩ := ih has slack hrest
      rw [hred]
      refine ⟨H1, H2, ?_, H4, ?_⟩
      · intro c hc
        obtain ⟨hc1, hc2, hc3⟩ := H3 c hc
        exact ⟨List.mem_cons_of_mem b hc1, hc2, hc3⟩
      · intro c hc hc2 hc3
        rcases List.mem_cons.mp hc with rfl | hc'
        · exact absurd hslack hc2
        · exact H5 c hc' hc2 hc3
    · by_cases hflag : has.getD b false = true
      · have hred : add_unclassified (b :: rest) has slack = add_unclassified rest has slack := by
          simp only [add_unclassified]
          rw [if_neg hslack, if_pos hflag]
        obtain ⟨H1, H2, H3, H4, H5⟩ := ih has slack hrest
        rw [hred]
        refine ⟨H1, H2, ?_, H4, ?_⟩
        · intro c hc
          obtain ⟨hc1, hc2, hc3⟩ := H3 c hc
          exact ⟨List.mem_cons_of_mem b hc1, hc2, hc3⟩
        · intro c hc hc2 hc3
          rcases List.mem_cons.mp hc with rfl | hc'
          · rw [hc3] at hflag; exact absurd hflag (by simp)
          · exact H5 c hc' hc2 hc3
      · have hflag' : has.getD b false = false := by
          cases h : has.getD b false
          · rfl
          · exact absurd h hflag
        have hred : add_unclassified (b :: rest) has slack =
            ((b :: (add_unclassified rest (has.set b true) slack).1),
             (add_unclassified rest (has.set b true) slack).2) := by
          simp only [add_unclassified]
          rw [if_neg hslack, if_neg hflag]
        have hrest' : ∀ c ∈ rest, c < (has.set b true).length := by
          simpa using hrest
        obtain ⟨H1, H2, H3, H4, H5⟩ := ih (has.set b true) slack hrest'
        rw [hred]
        have hb_not_mem : b ∉ (add_unclassified rest (has.set b true) slack).1 := by
          intro hmem
          obtain ⟨_, _, h3⟩ := H3 b hmem
          rw [getD_set_self has b hb_lt true] at h3
          exact absurd h3 (by simp)
        refine ⟨by simpa using H1, List.nodup_cons.mpr ⟨hb_not_mem, H2⟩, ?_, ?_, ?_⟩
        · intro c hc
          rcases List.mem_cons.mp hc with rfl | hc'
          · exact ⟨List.mem_cons_self c rest, hslack, hflag'⟩
          · obtain ⟨hc1, hc2, hc3⟩ := H3 c hc'
            have hcb : c ≠ b := by
              intro h; rw [h] at hc3; rw [getD_set_self has b hb_lt true] at hc3
              exact absurd hc3 (by simp)
            rw [getD_set_ne has (fun h => hcb h.symm) true] at hc3
            exact ⟨List.mem_cons_of_mem b hc1, hc2, hc3⟩
        · intro j
          rw [H4 j]
          by_cases hjb : j = b
          · subst hjb
            rw [getD_set_self has j hb_lt true]
            simp
          · rw [getD_set_ne has (fun h => hjb h.symm) true]
            constructor
            · rintro (h | h)
              · exact Or.inl h
              · exact Or.inr (List.mem_cons_of_mem b h)
            · rintro (h | h)
              · exact Or.inl h
              · rcases List.mem_cons.mp h with rfl | h'
                · exact absurd rfl hjb
                · exact Or.inr h'
        · intro c hc hc2 hc3
          rcases List.mem_cons.mp hc with rfl | hc'
          · exact List.mem_cons_self c _
          · by_cases hcb : c = b
            · subst hcb; exact List.mem_cons_self c _
            · have : (has.set b true).getD c false = false := by
                rw [getD_set_ne has (fun h => hcb h.symm) true]; exact hc3
              exact List.mem_cons_of_mem b (H5 c hc' hc2 this)

theorem getD_replicate_false (n j : ℕ) : (List.replicate n false).getD j false = false := by
  by_cases h : j < n
  · simp [List.getD, List.getElem?_replicate, h]
  · have hlen : (List.replicate n false).length ≤ j := by
      simpa using Nat.le_of_not_lt h
    simp [List.getD, List.getElem?_eq_none hlen]

/-- C2: after `GridModel::fillpv_pq`, the slack bus, the PV vector and the PQ
vector are pairwise disjoint, duplicate free, and together cover exactly the
solver buses `{0, ..., K-1}`.  `gen_buses` are the (valid) solver bus ids of
the active generators supplied by the element `fillpv` callbacks. -/
theorem fillpv_pq_partition (K : ℕ) (gen_buses : List ℕ) (slack : ℕ)
    (hs : slack < K) (hg : ∀ b ∈ gen_buses, b < K) :
    (fillpv_pq K gen_buses slack).1.Nodup ∧
    (fillpv_pq K gen_buses slack).2.Nodup ∧
    slack ∉ (fillpv_pq K gen_buses slack).1 ∧
    slack ∉ (fillpv_pq K gen_buses slack).2 ∧
    (∀ b ∈ (fillpv_pq K gen_buses slack).1, b ∉ (fillpv_pq K gen_buses slack).2) ∧
    (∀ b ∈ (fillpv_pq K gen_buses slack).1, b < K) ∧
    (∀ b ∈ (fillpv_pq K gen_buses slack).2, b < K) ∧
    (∀ j, j < K → j = slack ∨ j ∈ (fillpv_pq K gen_buses slack).1 ∨
        j ∈ (fillpv_pq K gen_buses slack).2) := by
  have hlen0 : ∀ b ∈ gen_buses, b < (List.replicate K false).length := by
    simpa using hg
  obtain ⟨P1, P2, P3, P4, P5⟩ :=
    add_unclassified_spec gen_buses (List.replicate K false) slack hlen0
  have hlen1 : ∀ b ∈ List.range K,
      b < (add_unclassified gen_buses (List.replicate K false) slack).2.length := by
    intro b hb
    rw [P1]
    simpa using List.mem_range.mp hb
  obtain ⟨Q1, Q2, Q3, Q4, Q5⟩ :=
    add_unclassified_spec (List.range K)
      (add_unclassified gen_buses (List.replicate K false) slack).2 slack hlen1
  have hfill : fillpv_pq K gen_buses slack =
      ((add_unclassified gen_buses (List.replicate K false) slack).1,
       (add_unclassified (List.range K)
         (add_unclassified gen_buses (List.replicate K false) slack).2 slack).1) := rfl
  rw [hfill]
  have hpv_flag : ∀ b, b ∈ (add_unclassified gen_buses (List.replicate K false) slack).1 ↔
      (add_unclassified gen_buses (List.replicate K false) slack).2.getD b false = true := by
    intro b
    rw [P4 b, getD_replicate_false K b]
    simp
  refine ⟨P2, Q2, ?_, ?_, ?_, ?_, ?_, ?_⟩
  · intro h
    obtain ⟨_, h2, _⟩ := P3 slack h
    exact h2 rfl
  · intro h
    obtain ⟨_, h2, _⟩ := Q3 slack h
    exact h2 rfl
  · intro b hbpv hbpq
    obtain ⟨_, _, hflag⟩ := Q3 b hbpq
    rw [(hpv_flag b).mp hbpv] at hflag
    exact absurd hflag (by simp)
  · intro b hb
    exact hg b (P3 b hb).1
  · intro b hb
    exact List.mem_range.mp (Q3 b hb).1
  · intro j hj
    by_cases hjs : j = slack
    · exact Or.inl hjs
    · by_cases hflag :
        (add_unclassified gen_buses (List.replicate K false) slack).2.getD j false = true
      · exact Or.inr (Or.inl ((hpv_flag j).mpr hflag))
      · have hflag' :
            (add_unclassified gen_buses (List.replicate K false) slack).2.getD j false
              = false := by
          cases h : (add_unclassified gen_buses (List.replicate K false) slack).2.getD j false
          · rfl
          · exact absurd h hflag
        exact Or.inr (Or.inr (Q5 j (List.mem_range.mpr hj) hjs hflag'))

theorem fillpv_pq_partition_witness :
    (fillpv_pq 3 [2] 0).1.Nodup ∧
    (0 : ℕ) ∉ (fillpv_pq 3 [2] 0).1 ∧
    ((1 : ℕ) = 0 ∨ (1 : ℕ) ∈ (fillpv_pq 3 [2] 0).1 ∨ (1 : ℕ) ∈ (fillpv_pq 3 [2] 0).2) := by
  obtain ⟨h1, _, h3, _, _, _, _, h8⟩ :=
    fillpv_pq_partition 3 [2] 0 (by decide) (by decide)
  exact ⟨h1, h3, h8 1 (by decide)⟩

/-! ## Slack correction of the injection vector (GridModel::fillSbus_me, lines 289-301)

The element `fillSbus` stampers (not in this subtree) have produced the
complex vector `S`, modelled as (real, imaginary) pairs; the correction then
computes `sum_active = res.sum().real()` and subtracts it from the slack
entry (`res.coeffRef(slack_bus_id_solver) -= sum_active`). -/

def fillSbus_slack (S : List (ℚ × ℚ)) (slack : ℕ) : List (ℚ × ℚ) :=
  let sum_active := (S.map Prod.fst).sum
  S.set slack ((S.getD slack (0, 0)).1 - sum_active, (S.getD slack (0, 0)).2)

theorem sum_set_rat (l : List ℚ) : ∀ (i : ℕ), i < l.length → ∀ x : ℚ,
    (l.set i x).sum = l.sum - l.getD i 0 + x := by
  induction l with
  | nil => intro i hi; simp at hi
  | cons a t ih =>
    intro i hi x
    cases i with
    | zero => simp [List.getD_cons_zero]; ring
    | succ j =>
      have hj : j < t.length := by simpa using hi
      simp only [List.set_cons_succ, List.sum_cons, List.getD_cons_succ, ih j hj x]
      ring

/-- C3: after `fillSbus_me` completes, the real parts of the injection vector
sum to zero; only the slack entry is modified, and it is decreased by exactly
the pre-correction real-part sum (its imaginary part is untouched). -/
theorem fillSbus_slack_balance (S : List (ℚ × ℚ)) (slack : ℕ) (h : slack < S.length) :
    ((fillSbus_slack S slack).map Prod.fst).sum = 0 ∧
    (∀ j, j ≠ slack → (fillSbus_slack S slack).getD j (0, 0) = S.getD j (0, 0)) ∧
    (fillSbus_slack S slack).getD slack (0, 0) =
      ((S.getD slack (0, 0)).1 - (S.map Prod.fst).sum, (S.getD slack (0, 0)).2) ∧
    (fillSbus_slack S slack).length = S.length := by
  have hmap : (fillSbus_slack S slack).map Prod.fst =
      (S.map Prod.fst).set slack ((S.getD slack (0, 0)).1 - (S.map Prod.fst).sum) := by
    simp [fillSbus_slack, List.map_set]
  have hlen : slack < (S.map Prod.fst).length := by simpa using h
  have hfst : (S.map Prod.fst).getD slack 0 = (S.getD slack (0, 0)).1 := by
    simp [List.getD, List.getElem?_map]
    rw [List.getElem?_eq_getElem h]
    simp
  refine ⟨?_, ?_, ?_, ?_⟩
  · rw [hmap, sum_set_rat (S.map Prod.fst) slack hlen, hfst]
    ring
  · intro j hj
    have hjs : slack ≠ j := fun hh => hj hh.symm
    simp [fillSbus_slack, List.getD, List.getElem?_set, hjs]
  · simp [fillSbus_slack, List.getD, List.getElem?_set, h]
  · simp [fillSbus_slack]

theorem fillSbus_slack_balance_witness :
    ((fillSbus_slack [((3 : ℚ), (1 : ℚ)), ((-1 : ℚ), (2 : ℚ))] 0).map Prod.fst).sum = 0 ∧
    (fillSbus_slack [((3 : ℚ), (1 : ℚ)), ((-1 : ℚ), (2 : ℚ))] 0).getD 1 (0, 0) = (-1, 2) := by
  obtain ⟨h1, h2, _, _⟩ :=
    fillSbus_slack_balance [((3 : ℚ), (1 : ℚ)), ((-1 : ℚ), (2 : ℚ))] 0 (by decide)
  refine ⟨h1, ?_⟩
  rw [h2 1 (by decide)]
  rfl

/-! ## DC solve, legacy path (GridModel::dc_pf_old, lines 372-496)

We embed the successful tail of `dc_pf_old`: the interior angle vector
`Va_dc` produced by the sparse LU solve is taken as an arbitrary input, and
the reconstruction of the full-size complex voltage vector (lines 451-495) is
modelled exactly.  A complex value `Vm*(cos Va + i sin Va)` is represented in
polar form by the pair `(Vm, Va)`, since magnitude and angle are the
quantities the claim speaks about. -/

/-- Modelled from the spec: the missing `DataGen::get_vm_for_dc` writes the
voltage-magnitude setpoint of every active generator into `Vm` at the
generator's (external) bus (spec section 4.6 step 5: "the generator voltage
setpoint on PV/slack buses").  `gens` lists `(bus, vm_setpoint)` of the
active generators. -/
def get_vm_for_dc (gens : List (ℕ × ℚ)) (Vm : List ℚ) : List ℚ :=
  gens.foldl (fun acc bv => acc.set bv.1 bv.2) Vm

/-- The result construction of `dc_pf_old` after a successful factorization
and solve: `Va` is zero at the slack and at disconnected buses and is read
from `Va_dc` elsewhere (with the post-slack index shift of line 465), then
`arg(Vinit(slack_bus_id_))` is added to all entries (line 468); `Vm` is 1 on
connected buses and 0 on disconnected ones (lines 485-489), then overwritten
by the generator setpoints; the returned vector is `Vm ⊙ e^{i·Va}` in polar
pairs. -/
def dc_pf_old_V (bus_status : List Bool) (slack_bus_id : ℕ) (Va_dc : List ℚ)
    (arg_Vinit_slack : ℚ) (gen_bus_vm : List (ℕ × ℚ)) : List (ℚ × ℚ) :=
  let nb_bus_me := bus_status.length
  let maps := init_Ybus_maps bus_status
  let slack_solver := (maps.1.getD slack_bus_id 0).toNat
  let Va0 := (List.range nb_bus_me).map (fun bus_id_me =>
    if bus_id_me = slack_bus_id then 0
    else if bus_status.getD bus_id_me false = false then 0
    else
      let s := (maps.1.getD bus_id_me 0).toNat
      Va_dc.getD (if s > slack_solver then s - 1 else s) 0)
  let Va := Va0.map (fun v => v + arg_Vinit_slack)
  let Vm0 := (List.range nb_bus_me).map
    (fun i => if bus_status.getD i false then (1 : ℚ) else 0)
  let Vm := get_vm_for_dc gen_bus_vm Vm0
  Vm.zip Va

theorem getD_set_eq_q (l : List ℚ) (i : ℕ) (h : i < l.length) (a : ℚ) :
    (l.set i a).getD i 0 = a := by
  simp [List.getD, List.getElem?_set, h]

theorem getD_set_ne_q (l : List ℚ) {i j : ℕ} (h : i ≠ j) (a : ℚ) :
    (l.set i a).getD j 0 = l.getD j 0 := by
  simp [List.getD, List.getElem?_set, h]

theorem get_vm_for_dc_length (gens : List (ℕ × ℚ)) : ∀ Vm : List ℚ,
    (get_vm_for_dc gens Vm).length = Vm.length := by
  induction gens with
  | nil => intro Vm; rfl
  | cons q rest ih =>
    intro Vm
    simp only [get_vm_for_dc, List.foldl_cons] at ih ⊢
    rw [ih (Vm.set q.1 q.2)]
    simp

theorem get_vm_for_dc_not_mem (gens : List (ℕ × ℚ)) : ∀ (Vm : List ℚ) (b : ℕ),
    b ∉ gens.map Prod.fst → (get_vm_for_dc gens Vm).getD b 0 = Vm.getD b 0 := by
  induction gens with
  | nil => intro Vm b _; rfl
  | cons q rest ih =>
    intro Vm b hb
    have hb1 : b ∉ rest.map Prod.fst := fun h => hb (List.mem_cons_of_mem _ h)
    have hbq : q.1 ≠ b := by
      intro h
      apply hb
      rw [List.map_cons, h]
      exact List.mem_cons_self _ _
    simp only [get_vm_for_dc, List.foldl_cons] at ih ⊢
    rw [ih (Vm.set q.1 q.2) b hb1, getD_set_ne_q Vm hbq q.2]

theorem get_vm_for_dc_mem (gens : List (ℕ × ℚ)) : ∀ (Vm : List ℚ) (p : ℕ × ℚ),
    p ∈ gens → (gens.map Prod.fst).Nodup → p.1 < Vm.length →
    (get_vm_for_dc gens Vm).getD p.1 0 = p.2 := by
  induction gens with
  | nil => intro Vm p hp; simp at hp
  | cons q rest ih =>
    intro Vm p hp hnd hlt
    have hnd' : (rest.map Prod.fst).Nodup := (List.nodup_cons.mp (by simpa using hnd)).2
    have hq_not : q.1 ∉ rest.map Prod.fst := (List.nodup_cons.mp (by simpa using hnd)).1
    rcases List.mem_cons.mp hp with rfl | hp'
    · simp only [get_vm_for_dc, List.foldl_cons]
      have := get_vm_for_dc_not_mem rest (Vm.set p.1 p.2) p.1 hq_not
      simp only [get_vm_for_dc] at this
      rw [this, getD_set_eq_q Vm p.1 hlt p.2]
    · have hlt' : p.1 < (Vm.set q.1 q.2).length := by simpa using hlt
      simp only [get_vm_for_dc, List.foldl_cons] at ih ⊢
      exact ih (Vm.set q.1 q.2) p hp' hnd' hlt'

theorem getD_zip_q (A B : List ℚ) (i : ℕ) (hA : i < A.length) (hB : i < B.length) :
    (A.zip B).getD i (0, 0) = (A.getD i 0, B.getD i 0) := by
  have hz : i < (A.zip B).length := by
    rw [List.length_zip]; omega
  rw [List.getD_eq_getElem?_getD, List.getD_eq_getElem?_getD, List.getD_eq_getElem?_getD]
  rw [List.getElem?_eq_getElem hz, List.getElem?_eq_getElem hA, List.getElem?_eq_getElem hB]
  simp [List.getElem_zip]

theorem getD_range_map_q (n : ℕ) (f : ℕ → ℚ) (i : ℕ) (h : i < n) :
    (((List.range n).map f).getD i 0) = f i := by
  have hlt : i < ((List.range n).map f).length := by simpa using h
  rw [List.getD_eq_getElem?_getD, List.getElem?_eq_getElem hlt]
  simp

theorem getD_map_add_q (l : List ℚ) (c : ℚ) (i : ℕ) (h : i < l.length) :
    ((l.map (fun v => v + c)).getD i 0) = l.getD i 0 + c := by
  have hlt : i < (l.map (fun v => v + c)).length := by simpa using h
  rw [List.getD_eq_getElem?_getD, List.getElem?_eq_getElem hlt,
      List.getD_eq_getElem?_getD, List.getElem?_eq_getElem h]
  simp

/-- C5: on success `dc_pf_old` returns a vector of length `N_ext` whose slack
entry has angle `arg(Vinit[slack_bus])`, whose disconnected entries are 0
(magnitude 0), and whose magnitude is 1 pu on connected buses without an
active generator and the generator voltage setpoint on buses hosting an
active generator. -/
theorem dc_pf_old_V_spec (bus_status : List Bool) (slack_bus_id : ℕ) (Va_dc : List ℚ)
    (arg_Vinit_slack : ℚ) (gen_bus_vm : List (ℕ × ℚ))
    (hslack_lt : slack_bus_id < bus_status.length)
    (hgen : ∀ p ∈ gen_bus_vm, p.1 < bus_status.length ∧ bus_status.getD p.1 false = true)
    (hnodup : (gen_bus_vm.map Prod.fst).Nodup) :
    (dc_pf_old_V bus_status slack_bus_id Va_dc arg_Vinit_slack gen_bus_vm).length
        = bus_status.length ∧
    ((dc_pf_old_V bus_status slack_bus_id Va_dc arg_Vinit_slack gen_bus_vm).getD
        slack_bus_id (0, 0)).2 = arg_Vinit_slack ∧
    (∀ i, i < bus_status.length → bus_status.getD i false = false →
      ((dc_pf_old_V bus_status slack_bus_id Va_dc arg_Vinit_slack gen_bus_vm).getD
          i (0, 0)).1 = 0) ∧
    (∀ i, i < bus_status.length → bus_status.getD i false = true →
      i ∉ gen_bus_vm.map Prod.fst →
      ((dc_pf_old_V bus_status slack_bus_id Va_dc arg_Vinit_slack gen_bus_vm).getD
          i (0, 0)).1 = 1) ∧
    (∀ p ∈ gen_bus_vm,
      ((dc_pf_old_V bus_status slack_bus_id Va_dc arg_Vinit_slack gen_bus_vm).getD
          p.1 (0, 0)).1 = p.2) := by
  set n := bus_status.length with hn
  set maps := init_Ybus_maps bus_status with hmaps
  set slack_solver := (maps.1.getD slack_bus_id 0).toNat with hss
  set Va0 := (List.range n).map (fun bus_id_me =>
    if bus_id_me = slack_bus_id then 0
    else if bus_status.getD bus_id_me false = false then 0
    else
      let s := (maps.1.getD bus_id_me 0).toNat
      Va_dc.getD (if s > slack_solver then s - 1 else s) 0) with hVa0
  set Va := Va0.map (fun v => v + arg_Vinit_slack) with hVa
  set Vm0 := (List.range n).map
    (fun i => if bus_status.getD i false then (1 : ℚ) else 0) with hVm0
  set Vm := get_vm_for_dc gen_bus_vm Vm0 with hVm
  have hres : dc_pf_old_V bus_status slack_bus_id Va_dc arg_Vinit_slack gen_bus_vm
      = Vm.zip Va := rfl
  have hVm0_len : Vm0.length = n := by simp [hVm0]
  have hVm_len : Vm.length = n := by rw [hVm, get_vm_for_dc_length, hVm0_len]
  have hVa0_len : Va0.length = n := by simp [hVa0]
  have hVa_len : Va.length = n := by simp [hVa, hVa0_len]
  have hzip_len : (Vm.zip Va).length = n := by
    rw [List.length_zip, hVm_len, hVa_len]; omega
  have hgetD : ∀ i, i < n → (Vm.zip Va).getD i (0, 0) = (Vm.getD i 0, Va.getD i 0) := by
    intro i hi
    exact getD_zip_q Vm Va i (by omega) (by omega)
  refine ⟨by rw [hres]; exact hzip_len, ?_, ?_, ?_, ?_⟩
  · rw [hres, hgetD slack_bus_id hslack_lt]
    have h1 : Va.getD slack_bus_id 0 = Va0.getD slack_bus_id 0 + arg_Vinit_slack := by
      rw [hVa]; exact getD_map_add_q Va0 arg_Vinit_slack slack_bus_id (by omega)
    have h2 : Va0.getD slack_bus_id 0 = 0 := by
      rw [hVa0, getD_range_map_q n _ slack_bus_id hslack_lt]
      simp
    show Va.getD slack_bus_id 0 = arg_Vinit_slack
    rw [h1, h2]
    ring
  · intro i hi hdis
    have hnot_gen : i ∉ gen_bus_vm.map Prod.fst := by
      intro hmem
      obtain ⟨p, hp, hpi⟩ := List.mem_map.mp hmem
      have := (hgen p hp).2
      rw [hpi] at this
      rw [this] at hdis
      exact absurd hdis (by simp)
    rw [hres, hgetD i hi]
    have h1 : Vm.getD i 0 = Vm0.getD i 0 := by
      rw [hVm]; exact get_vm_for_dc_not_mem gen_bus_vm Vm0 i hnot_gen
    have h2 : Vm0.getD i 0 = 0 := by
      rw [hVm0, getD_range_map_q n _ i hi, hdis]
      simp
    show Vm.getD i 0 = 0
    rw [h1, h2]
  · intro i hi hconn hnot_gen
    rw [hres, hgetD i hi]
    have h1 : Vm.getD i 0 = Vm0.getD i 0 := by
      rw [hVm]; exact get_vm_for_dc_not_mem gen_bus_vm Vm0 i hnot_gen
    have h2 : Vm0.getD i 0 = 1 := by
      rw [hVm0, getD_range_map_q n _ i hi, hconn]
      simp
    show Vm.getD i 0 = 1
    rw [h1, h2]
  · intro p hp
    have hp1 : p.1 < n := (hgen p hp).1
    rw [hres, hgetD p.1 hp1]
    have h1 : Vm.getD p.1 0 = p.2 := by
      rw [hVm]
      exact get_vm_for_dc_mem gen_bus_vm Vm0 p hp hnodup (by omega)
    show Vm.getD p.1 0 = p.2
    rw [h1]

theorem dc_pf_old_V_spec_witness :
    (dc_pf_old_V [true, true, false] 0 [(1 : ℚ) / 2] ((1 : ℚ) / 4) [(1, (21 : ℚ) / 20)]).length
        = 3 ∧
    ((dc_pf_old_V [true, true, false] 0 [(1 : ℚ) / 2] ((1 : ℚ) / 4)
        [(1, (21 : ℚ) / 20)]).getD 0 (0, 0)).2 = (1 : ℚ) / 4 ∧
    ((dc_pf_old_V [true, true, false] 0 [(1 : ℚ) / 2] ((1 : ℚ) / 4)
        [(1, (21 : ℚ) / 20)]).getD 2 (0, 0)).1 = 0 ∧
    ((dc_pf_old_V [true, true, false] 0 [(1 : ℚ) / 2] ((1 : ℚ) / 4)
        [(1, (21 : ℚ) / 20)]).getD 1 (0, 0)).1 = (21 : ℚ) / 20 := by
  obtain ⟨h1, h2, h3, _, h5⟩ :=
    dc_pf_old_V_spec [true, true, false] 0 [(1 : ℚ) / 2] ((1 : ℚ) / 4)
      [(1, (21 : ℚ) / 20)] (by decide) (by decide) (by decide)
  exact ⟨h1, h2, h3 2 (by decide) (by decide), h5 (1, (21 : ℚ) / 20) (by simp)⟩

/-! ## The grid facade (GridModel.h / GridModel.cpp)

`GridModel` is embedded field by field.  The element collections whose
implementation is outside this subtree are carried as payloads: lines,
shunts, trafos and static generators are opaque (`List ℚ`), while the
generator and load/storage collections are structured because the claims
inspect them.  Per-element result tables live in `results` and are the only
thing `compute_results` / `reset_results` write. -/

inductive SolverType
  | SparseLU
  | KLU
  | GaussSeidel
  | DC
deriving DecidableEq

inductive PfError
  | InputSizeMismatch
  | SlackDisconnected
  | SlackInvalid
  | SolverBusMismatch
deriving DecidableEq

structure DataGen where
  p_mw : List ℚ
  vm_pu : List ℚ
  bus_id : List ℕ
  status : List Bool
deriving DecidableEq

structure DataLoad where
  p_mw : List ℚ
  q_mvar : List ℚ
  bus_id : List ℕ
  status : List Bool
deriving DecidableEq

structure ElemResults where
  lines : List ℚ
  shunts : List ℚ
  trafos : List ℚ
  loads : List ℚ
  gens : List ℚ
deriving DecidableEq

def ElemResults.empty : ElemResults := ⟨[], [], [], [], []⟩

def DataGen.nb (g : DataGen) : ℕ := g.bus_id.length

structure GridModel where
  need_reset : Bool
  compute_results_flag : Bool
  init_vm_pu : ℚ
  sn_mva : ℚ
  bus_vn_kv : List ℚ
  bus_status : List Bool
  id_me_to_solver : List Int
  id_solver_to_me : List ℕ
  powerlines : List ℚ
  shunts : List ℚ
  trafos : List ℚ
  generators : DataGen
  loads : DataLoad
  sgens : List ℚ
  storages : DataLoad
  gen_slackbus : Int
  slack_bus_id : ℕ
  slack_bus_id_solver : Int
  ybus : List ℚ
  sbus : List (ℚ × ℚ)
  bus_pv : List ℕ
  bus_pq : List ℕ
  solver_type : SolverType
  results : ElemResults
deriving DecidableEq

/-- `GridModel::reset` (lines 146-159): clears the assembled matrices, the
conversion maps, the slack solver id and the PV/PQ vectors, sets the dirty
flag, and resets the solver iterate (the solver keeps its selected type). -/
def GridModel.reset (m : GridModel) : GridModel :=
  { m with ybus := [], sbus := [], id_me_to_solver := [], id_solver_to_me := [],
           slack_bus_id_solver := -1, bus_pv := [], bus_pq := [],
           need_reset := true }

/-- The state tuple actually built by `GridModel::get_state` in
GridModel.cpp (lines 63-82): 8 components.  Each collection's own
serialization is modelled from the spec as the lossless payload of the
collection ("each *_state is the element collection's own serialization,
opaque to the facade"). -/
structure StateRes where
  bus_vn_kv : List ℚ
  bus_status : List Bool
  state_lines : List ℚ
  state_shunts : List ℚ
  state_trafos : List ℚ
  state_gens : DataGen
  state_loads : DataLoad
  gen_slackbus : Int
deriving DecidableEq

def GridModel.get_state (m : GridModel) : StateRes :=
  { bus_vn_kv := m.bus_vn_kv, bus_status := m.bus_status,
    state_lines := m.powerlines, state_shunts := m.shunts,
    state_trafos := m.trafos, state_gens := m.generators,
    state_loads := m.loads, gen_slackbus := m.gen_slackbus }

/-- `GridModel::set_state` (lines 84-131): reset, force the dirty flag and
result computation on, then restore exactly the captured components.
`init_vm_pu_`, `sn_mva_`, the sgen and storage collections and the solver
selection are not touched. -/
def GridModel.set_state (m : GridModel) (st : StateRes) : GridModel :=
  let m1 := m.reset
  { m1 with
    need_reset := true, compute_results_flag := true,
    bus_vn_kv := st.bus_vn_kv, bus_status := st.bus_status,
    powerlines := st.state_lines, shunts := st.state_shunts,
    trafos := st.state_trafos, generators := st.state_gens,
    loads := st.state_loads, gen_slackbus := st.gen_slackbus }

/-- Modelled from the spec: `DataGen::get_slack_bus_id` is not in this
subtree; per spec section 3 ("Slack assignment") the designated slack
generator's bus becomes the slack bus. -/
def DataGen.get_slack_bus_id (g : DataGen) (gen_slackbus : Int) : ℕ :=
  g.bus_id.getD gen_slackbus.toNat 0

/-- Modelled from the spec: the solver bus ids that the generator family
hands to `classify_pv` — the bus of every active generator, translated
through `id_me_to_solver` (spec section 4.1). -/
def DataGen.pv_candidates (g : DataGen) (idm : List Int) : List ℕ :=
  ((g.bus_id.zip g.status).filter (fun p => p.2)).map
    (fun p => (idm.getD p.1 0).toNat)

/-- Modelled from the spec: `DataGen::set_vm` overwrites the magnitude of the
initial iterate at each active generator's solver bus with the generator's
voltage setpoint, keeping the angle component. -/
def DataGen.set_vm (g : DataGen) (V : List (ℚ × ℚ)) (idm : List Int) : List (ℚ × ℚ) :=
  (((g.bus_id.zip g.vm_pu).zip g.status).filter (fun p => p.2)).foldl
    (fun acc p =>
      acc.set (idm.getD p.1.1 0).toNat
        (p.1.2, (acc.getD (idm.getD p.1.1 0).toNat (0, 0)).2)) V

/-- Signature of the element `fillYbus` stampers (element code outside this
subtree): collections, the ac flag and the index map determine the assembled
sparse matrix, kept opaque. -/
abbrev YStamper :=
  List ℚ → List ℚ → List ℚ → DataLoad → DataGen → Bool → List Int → List ℚ

/-- Signature of the element `fillSbus` stampers: collections, ac flag,
index map and the solver bus count determine the stamped injection vector
(before the slack correction). -/
abbrev SStamper :=
  List ℚ → List ℚ → List ℚ → DataLoad → DataGen → Bool → List Int → ℕ → List (ℚ × ℚ)

/-- Signature of `_solver.compute_pf` (ChooseSolver is outside this
subtree): `none` models a run that reports non-convergence (including
MaxIterExceeded), `some V` a converged run together with `get_V()`. -/
abbrev PfSolver :=
  List ℚ → List (ℚ × ℚ) → List (ℚ × ℚ) → List ℕ → List ℕ → ℕ → ℚ → Option (List (ℚ × ℚ))

/-- Signature of `compute_results` (lines 329-362): reads the model and the
solved voltages and writes only the per-element result tables. -/
abbrev ResultProjector := GridModel → List (ℚ × ℚ) → ElemResults

/-- `GridModel::pre_process_solver` (lines 186-210): reset, recompute the
slack bus from the slack generator, rebuild the index maps, fail with
`SlackDisconnected` when `id_me_to_solver[slack_bus_id_]` is `-1`
(init_Ybus lines 264-268), stamp Ybus and Sbus (abstract stampers `yF`,
`sF`, with the source's slack correction applied on top), classify PV/PQ and
build the initial iterate from `Vinit`. -/
def pre_process_solver (yF : YStamper) (sF : SStamper) (m : GridModel)
    (Vinit : List (ℚ × ℚ)) (is_ac : Bool) :
    GridModel × Except PfError (List (ℚ × ℚ)) :=
  let m1 := m.reset
  let sbid := m1.generators.get_slack_bus_id m1.gen_slackbus
  let maps := init_Ybus_maps m1.bus_status
  let m2 := { m1 with slack_bus_id := sbid,
                      id_me_to_solver := maps.1, id_solver_to_me := maps.2 }
  let sbs := maps.1.getD sbid (-1)
  if sbs = -1 then (m2, Except.error PfError.SlackDisconnected)
  else
    let nb_bus_solver := maps.2.length
    let m3 := { m2 with
      slack_bus_id_solver := sbs,
      ybus := yF m2.powerlines m2.shunts m2.trafos m2.loads m2.generators is_ac maps.1 }
    let pvpq := fillpv_pq nb_bus_solver (m3.generators.pv_candidates maps.1) sbs.toNat
    let m4 := { m3 with bus_pv := pvpq.1, bus_pq := pvpq.2 }
    let sbus_stamped :=
      sF m4.powerlines m4.shunts m4.trafos m4.loads m4.generators is_ac maps.1 nb_bus_solver
    let m5 := { m4 with sbus := fillSbus_slack sbus_stamped sbs.toNat }
    let V0 := maps.2.map (fun bus_me_id => Vinit.getD bus_me_id (104 / 100, 0))
    (m5, Except.ok (m5.generators.set_vm V0 maps.1))

/-- `GridModel::reset_results` (lines 364-370); the collection bodies are
outside this subtree and modelled from the spec: "the facade clears
results". -/
def GridModel.reset_results (m : GridModel) : GridModel :=
  { m with results := ElemResults.empty }

/-- The result gathering of `process_results` (lines 219-231): expand the
solver voltage vector back to external size, 0 at disconnected buses, and
raise if a connected bus carries the `-1` sentinel. -/
def gather_results (bus_status : List Bool) (idm : List Int)
    (Vsol : List (ℚ × ℚ)) : Except PfError (List (ℚ × ℚ)) :=
  (List.range bus_status.length).mapM (fun bus_id_me =>
    if bus_status.getD bus_id_me false = false then Except.ok ((0 : ℚ), (0 : ℚ))
    else
      let s := idm.getD bus_id_me 0
      if s = -1 then Except.error PfError.SolverBusMismatch
      else Except.ok (Vsol.getD s.toNat (0, 0)))

/-- `GridModel::ac_pf` (lines 161-184) composed with `process_results`
(lines 211-237).  On convergence the per-element results are computed when
`compute_results_` is set and the dirty flag is cleared; on divergence the
results are cleared, the dirty flag is set and the empty vector is
returned. -/
def ac_pf (yF : YStamper) (sF : SStamper) (cr : ResultProjector) (solver : PfSolver)
    (m : GridModel) (Vinit : List (ℚ × ℚ)) (max_iter : ℕ) (tol : ℚ) :
    GridModel × Except PfError (List (ℚ × ℚ)) :=
  if Vinit.length ≠ m.bus_vn_kv.length then (m, Except.error PfError.InputSizeMismatch)
  else
    match pre_process_solver yF sF m Vinit true with
    | (m', Except.error e) => (m', Except.error e)
    | (m', Except.ok V) =>
      match solver m'.ybus V m'.sbus m'.bus_pv m'.bus_pq max_iter tol with
      | some Vsol =>
        let m2 := if m'.compute_results_flag then { m' with results := cr m' Vsol } else m'
        let m3 := { m2 with need_reset := false }
        match gather_results m'.bus_status m'.id_me_to_solver Vsol with
        | Except.error e => (m3, Except.error e)
        | Except.ok res => (m3, Except.ok res)
      | none =>
        let md := m'.reset_results
        ({ md with need_reset := true }, Except.ok [])

/-- `GridModel::dc_pf` (lines 498-529): save the selected solver type, switch
to the DC solver, run the same pipeline as `ac_pf` with `is_ac = false`, and
restore the saved type before returning.  A C++ exception thrown between the
switch and the restore (the error outcomes) propagates before the restore
statement runs, so on those paths the returned state still has the DC
solver selected. -/
def dc_pf (yF : YStamper) (sF : SStamper) (cr : ResultProjector) (solver : PfSolver)
    (m : GridModel) (Vinit : List (ℚ × ℚ)) (max_iter : ℕ) (tol : ℚ) :
    GridModel × Except PfError (List (ℚ × ℚ)) :=
  if Vinit.length ≠ m.bus_vn_kv.length then (m, Except.error PfError.InputSizeMismatch)
  else
    let saved_type := m.solver_type
    let m0 := { m with solver_type := SolverType.DC }
    match pre_process_solver yF sF m0 Vinit false with
    | (m', Except.error e) => (m', Except.error e)
    | (m', Except.ok V) =>
      match solver m'.ybus V m'.sbus m'.bus_pv m'.bus_pq max_iter tol with
      | some Vsol =>
        let m2 := if m'.compute_results_flag then { m' with results := cr m' Vsol } else m'
        let m3 := { m2 with need_reset := false }
        match gather_results m'.bus_status m'.id_me_to_solver Vsol with
        | Except.error e => (m3, Except.error e)
        | Except.ok res => ({ m3 with solver_type := saved_type }, Except.ok res)
      | none =>
        let md := m'.reset_results
        ({ md with need_reset := true, solver_type := saved_type }, Except.ok [])

/-- `GridModel::add_gen_slackbus` (lines 544-548), with the guards exactly as
written in the source: reject `gen_id < 0` and `gen_id > generators_.nb()`,
otherwise record the id. -/
def GridModel.add_gen_slackbus (m : GridModel) (gen_id : Int) : Except PfError GridModel :=
  if gen_id < 0 then Except.error PfError.SlackInvalid
  else if gen_id > (m.generators.nb : Int) then Except.error PfError.SlackInvalid
  else Except.ok { m with gen_slackbus := gen_id }

/-- Modelled from the spec: `DataLoad::change_p` (used for the storage
collection) is a continuous mutation that updates the active-power setpoint
and flips the dirty flag; per spec section 9 storage is always-active, with
no implicit (de)activation. -/
def DataLoad.change_p (c : DataLoad) (el_id : ℕ) (new_p : ℚ) : DataLoad × Bool :=
  ({ c with p_mw := c.p_mw.set el_id new_p }, true)

/-- `GridModel::change_p_storage` (GridModel.h lines 246-257): the
deactivate/reactivate-on-zero branch is commented out in the source; only
`storages_.change_p(storage_id, new_p, need_reset_)` runs. -/
def GridModel.change_p_storage (m : GridModel) (storage_id : ℕ) (new_p : ℚ) : GridModel :=
  let r := m.storages.change_p storage_id new_p
  { m with storages := r.1, need_reset := r.2 }

/-! ## Concrete fixtures used by witnesses and counterexamples -/

def trivY : YStamper := fun _ _ _ _ _ _ _ => []

def trivS : SStamper := fun _ _ _ _ _ _ _ _ => []

def trivCR : ResultProjector := fun _ _ => ElemResults.empty

def divergeSolver : PfSolver := fun _ _ _ _ _ _ _ => none

def gmOk : GridModel where
  need_reset := true
  compute_results_flag := true
  init_vm_pu := 104 / 100
  sn_mva := 1
  bus_vn_kv := [138, 138]
  bus_status := [true, true]
  id_me_to_solver := []
  id_solver_to_me := []
  powerlines := [1]
  shunts := []
  trafos := []
  generators := { p_mw := [50], vm_pu := [102 / 100], bus_id := [0], status := [true] }
  loads := { p_mw := [50], q_mvar := [20], bus_id := [1], status := [true] }
  sgens := []
  storages := { p_mw := [0], q_mvar := [0], bus_id := [1], status := [true] }
  gen_slackbus := 0
  slack_bus_id := 0
  slack_bus_id_solver := -1
  ybus := []
  sbus := []
  bus_pv := []
  bus_pq := []
  solver_type := SolverType.SparseLU
  results := ElemResults.empty

def gmSlackOff : GridModel := { gmOk with bus_status := [false, true] }

def gm7 : GridModel :=
  { gmOk with generators :=
      { p_mw := [10, 10], vm_pu := [1, 1], bus_id := [0, 1], status := [true, true] } }

/-- C7 (boundary case): with 2 generators (valid ids 0 and 1),
`add_gen_slackbus 2` succeeds and records the out-of-range id, because the
source guard at GridModel.cpp line 546 uses `gen_id > generators_.nb()`
instead of `gen_id >= generators_.nb()`; the claim (and the error message in
the source, "should be an id of a generator") requires a raise here. -/
theorem add_gen_slackbus_boundary :
    GridModel.add_gen_slackbus gm7 2 = Except.ok { gm7 with gen_slackbus := 2 } ∧
    ¬ ((2 : Int) < (gm7.generators.nb : Int)) := by
  exact ⟨rfl, by decide⟩

/-- C9: `change_p_storage` updates only the storage P setpoint and the dirty
flag, for every new value including 0: the activation status (and every
other component of the model) is untouched. -/
theorem change_p_storage_frame (m : GridModel) (storage_id : ℕ) (new_p : ℚ) :
    (m.change_p_storage storage_id new_p).storages.status = m.storages.status ∧
    (m.change_p_storage storage_id new_p).storages.bus_id = m.storages.bus_id ∧
    (m.change_p_storage storage_id new_p).storages.q_mvar = m.storages.q_mvar ∧
    (m.change_p_storage storage_id new_p).storages.p_mw
      = m.storages.p_mw.set storage_id new_p ∧
    (m.change_p_storage storage_id new_p).need_reset = true ∧
    (m.change_p_storage storage_id new_p).generators = m.generators ∧
    (m.change_p_storage storage_id new_p).loads = m.loads ∧
    (m.change_p_storage storage_id new_p).bus_status = m.bus_status ∧
    (m.change_p_storage storage_id new_p).solver_type = m.solver_type ∧
    (m.change_p_storage storage_id new_p).results = m.results :=
  ⟨rfl, rfl, rfl, rfl, rfl, rfl, rfl, rfl, rfl, rfl⟩

/-! ## Slack-disconnected failure (C6) -/

theorem getD_int_default (l : List Int) (i : ℕ) (h : i < l.length) (d1 d2 : Int) :
    l.getD i d1 = l.getD i d2 := by
  rw [List.getD_eq_getElem?_getD, List.getD_eq_getElem?_getD, List.getElem?_eq_getElem h]
  rfl

theorem pre_process_solver_slack_dis (yF : YStamper) (sF : SStamper) (m : GridModel)
    (Vinit : List (ℚ × ℚ)) (is_ac : Bool)
    (hrange : m.generators.get_slack_bus_id m.gen_slackbus < m.bus_status.length)
    (hdis : m.bus_status.getD (m.generators.get_slack_bus_id m.gen_slackbus) false = false) :
    (pre_process_solver yF sF m Vinit is_ac).2 = Except.error PfError.SlackDisconnected := by
  have hlen : (init_Ybus_maps m.bus_status).1.length = m.bus_status.length :=
    iyb_fst_length _ 0 0
  have hc : (init_Ybus_maps m.bus_status).1.getD
      (m.generators.get_slack_bus_id m.gen_slackbus) (-1) = -1 := by
    rw [getD_int_default _ _ (by rw [hlen]; exact hrange) (-1) 0]
    exact iyb_fst_false m.bus_status _ 0 0 hrange hdis
  unfold pre_process_solver
  dsimp only [GridModel.reset]
  split
  · rfl
  · rename_i h
    exact absurd hc h

/-- C6: if the designated slack bus is marked disconnected in `bus_status_`,
both `ac_pf` and `dc_pf` fail during assembly with `SlackDisconnected`
(GridModel::init_Ybus, lines 264-268), before the iteration starts: the
outcome is the same for every abstract solver, which is never consulted. -/
theorem slack_disconnected_aborts (yF : YStamper) (sF : SStamper) (cr : ResultProjector)
    (solver : PfSolver) (m : GridModel) (Vinit : List (ℚ × ℚ)) (max_iter : ℕ) (tol : ℚ)
    (hsz : Vinit.length = m.bus_vn_kv.length)
    (hrange : m.generators.get_slack_bus_id m.gen_slackbus < m.bus_status.length)
    (hdis : m.bus_status.getD (m.generators.get_slack_bus_id m.gen_slackbus) false = false) :
    (ac_pf yF sF cr solver m Vinit max_iter tol).2 = Except.error PfError.SlackDisconnected ∧
    (dc_pf yF sF cr solver m Vinit max_iter tol).2 = Except.error PfError.SlackDisconnected := by
  constructor
  · rcases hp : pre_process_solver yF sF m Vinit true with ⟨m', E⟩
    have hE : E = Except.error PfError.SlackDisconnected := by
      have h := pre_process_solver_slack_dis yF sF m Vinit true hrange hdis
      rw [hp] at h
      exact h
    subst hE
    simp [ac_pf, hsz, hp]
  · rcases hp : pre_process_solver yF sF { m with solver_type := SolverType.DC }
        Vinit false with ⟨m', E⟩
    have hE : E = Except.error PfError.SlackDisconnected := by
      have h := pre_process_solver_slack_dis yF sF
        { m with solver_type := SolverType.DC } Vinit false hrange hdis
      rw [hp] at h
      exact h
    subst hE
    simp [dc_pf, hsz, hp]

theorem slack_disconnected_aborts_witness :
    (ac_pf trivY trivS trivCR divergeSolver gmSlackOff
        [((1 : ℚ), (0 : ℚ)), ((1 : ℚ), (0 : ℚ))] 10 1).2
      = Except.error PfError.SlackDisconnected ∧
    (dc_pf trivY trivS trivCR divergeSolver gmSlackOff
        [((1 : ℚ), (0 : ℚ)), ((1 : ℚ), (0 : ℚ))] 10 1).2
      = Except.error PfError.SlackDisconnected :=
  slack_disconnected_aborts trivY trivS trivCR divergeSolver gmSlackOff
    [((1 : ℚ), (0 : ℚ)), ((1 : ℚ), (0 : ℚ))] 10 1 (by decide) (by decide) (by decide)

/-! ## Divergence sentinel (C8) -/

/-- C8: whenever the solver reports non-convergence, `ac_pf` does not raise:
it clears the per-element results, sets the dirty flag (forcing full
re-assembly on the next solve) and returns the empty voltage vector
(`process_results`, lines 232-236, and `reset_results`). -/
theorem divergence_sentinel (yF : YStamper) (sF : SStamper) (cr : ResultProjector)
    (solver : PfSolver) (m : GridModel) (Vinit : List (ℚ × ℚ)) (max_iter : ℕ) (tol : ℚ)
    (m' : GridModel) (V : List (ℚ × ℚ))
    (hsz : Vinit.length = m.bus_vn_kv.length)
    (hpre : pre_process_solver yF sF m Vinit true = (m', Except.ok V))
    (hdiv : solver m'.ybus V m'.sbus m'.bus_pv m'.bus_pq max_iter tol = none) :
    (ac_pf yF sF cr solver m Vinit max_iter tol).2 = Except.ok [] ∧
    (ac_pf yF sF cr solver m Vinit max_iter tol).1.need_reset = true ∧
    (ac_pf yF sF cr solver m Vinit max_iter tol).1.results = ElemResults.empty := by
  have hres : ac_pf yF sF cr solver m Vinit max_iter tol
      = ({ m'.reset_results with need_reset := true }, Except.ok []) := by
    simp [ac_pf, hsz, hpre, hdiv]
  rw [hres]
  exact ⟨rfl, rfl, rfl⟩

theorem divergence_sentinel_witness :
    (ac_pf trivY trivS trivCR divergeSolver gmOk
        [((1 : ℚ), (0 : ℚ)), ((1 : ℚ), (0 : ℚ))] 10 1).2 = Except.ok [] ∧
    (ac_pf trivY trivS trivCR divergeSolver gmOk
        [((1 : ℚ), (0 : ℚ)), ((1 : ℚ), (0 : ℚ))] 10 1).1.need_reset = true ∧
    (ac_pf trivY trivS trivCR divergeSolver gmOk
        [((1 : ℚ), (0 : ℚ)), ((1 : ℚ), (0 : ℚ))] 10 1).1.results = ElemResults.empty := by
  refine divergence_sentinel trivY trivS trivCR divergeSolver gmOk
    [((1 : ℚ), (0 : ℚ)), ((1 : ℚ), (0 : ℚ))] 10 1
    (pre_process_solver trivY trivS gmOk
      [((1 : ℚ), (0 : ℚ)), ((1 : ℚ), (0 : ℚ))] true).1
    [((102 : ℚ) / 100, (0 : ℚ)), ((1 : ℚ), (0 : ℚ))] (by decide) ?_ rfl
  rfl

/-! ## Solver-type save/restore in dc_pf (C10) -/

/-- C10 counterexample: `dc_pf` on a grid whose slack bus is disconnected
raises `SlackDisconnected` after the switch to the DC solver and before the
restore statement (GridModel.cpp line 525), so the call leaves the DC solver
selected although the grid's solver type was `SparseLU`; the solver
selection observable via `get_solver_type` is therefore NOT unchanged by
every call to `dc_pf`. -/
theorem dc_pf_error_leaves_dc_selected :
    (dc_pf trivY trivS trivCR divergeSolver gmSlackOff
        [((1 : ℚ), (0 : ℚ)), ((1 : ℚ), (0 : ℚ))] 10 1).2
      = Except.error PfError.SlackDisconnected ∧
    (dc_pf trivY trivS trivCR divergeSolver gmSlackOff
        [((1 : ℚ), (0 : ℚ)), ((1 : ℚ), (0 : ℚ))] 10 1).1.solver_type = SolverType.DC ∧
    gmSlackOff.solver_type = SolverType.SparseLU :=
  ⟨rfl, rfl, rfl⟩

/-- C10 (amended): `dc_pf` saves the selected solver type on entry, switches
to the DC solver, and restores the saved type before returning on both the
converged and the diverged path; hence every call of `dc_pf` that returns
normally (without raising) leaves the solver selection observable via
`get_solver_type` unchanged.  (A call that raises after the switch can leave
the DC solver selected.) -/
theorem dc_pf_restores_solver_type (yF : YStamper) (sF : SStamper) (cr : ResultProjector)
    (solver : PfSolver) (m : GridModel) (Vinit : List (ℚ × ℚ)) (max_iter : ℕ) (tol : ℚ)
    (v : List (ℚ × ℚ))
    (h : (dc_pf yF sF cr solver m Vinit max_iter tol).2 = Except.ok v) :
    (dc_pf yF sF cr solver m Vinit max_iter tol).1.solver_type = m.solver_type := by
  by_cases hc : Vinit.length ≠ m.bus_vn_kv.length
  · simp [dc_pf, hc]
  · have hsz : Vinit.length = m.bus_vn_kv.length := not_not.mp hc
    rcases hp : pre_process_solver yF sF { m with solver_type := SolverType.DC }
        Vinit false with ⟨m', E⟩
    cases E with
    | error e => simp [dc_pf, hsz, hp] at h
    | ok V =>
      rcases hS : solver m'.ybus V m'.sbus m'.bus_pv m'.bus_pq max_iter tol with _ | Vsol
      · simp [dc_pf, hsz, hp, hS]
      · rcases hG : gather_results m'.bus_status m'.id_me_to_solver Vsol with e | res
        · simp [dc_pf, hsz, hp, hS, hG] at h
        · simp [dc_pf, hsz, hp, hS, hG]

theorem dc_pf_restores_solver_type_witness :
    (dc_pf trivY trivS trivCR divergeSolver gmOk
        [((1 : ℚ), (0 : ℚ)), ((1 : ℚ), (0 : ℚ))] 10 1).1.solver_type = gmOk.solver_type :=
  dc_pf_restores_solver_type trivY trivS trivCR divergeSolver gmOk
    [((1 : ℚ), (0 : ℚ)), ((1 : ℚ), (0 : ℚ))] 10 1 [] rfl

/-! ## State capture round trip (C4) -/

def gmB : GridModel :=
  { gmOk with init_vm_pu := 2, sn_mva := 5, sgens := [7],
              storages := { p_mw := [3], q_mvar := [4], bus_id := [0], status := [false] } }

/-- C4 counterexample: `gmOk` and `gmB` differ in `init_vm_pu_`, `sn_mva_`,
the static-generator collection and the storage collection, yet their
`get_state` captures are identical — the state tuple built by
`GridModel::get_state` in GridModel.cpp (8 components) does not contain the
version, `init_vm_pu`, `sn_mva`, sgen or storage entries that the claim (and
the 13-component `StateRes` typedef in GridModel.h) list. -/
theorem get_state_misses_fields :
    GridModel.get_state gmOk = GridModel.get_state gmB ∧
    gmOk.init_vm_pu ≠ gmB.init_vm_pu ∧
    gmOk.sn_mva ≠ gmB.sn_mva ∧
    gmOk.sgens ≠ gmB.sgens ∧
    gmOk.storages ≠ gmB.storages := by
  refine ⟨rfl, ?_, ?_, ?_, ?_⟩
  · show (104 / 100 : ℚ) ≠ 2
    norm_num
  · show (1 : ℚ) ≠ 5
    norm_num
  · show ([] : List ℚ) ≠ [7]
    simp
  · intro h
    have hb := congrArg DataLoad.bus_id h
    have hb1 : gmOk.storages.bus_id = [1] := rfl
    have hb0 : gmB.storages.bus_id = [0] := rfl
    rw [hb1, hb0] at hb
    simp at hb

theorem pre_process_congr (yF : YStamper) (sF : SStamper) (m₁ m₂ : GridModel)
    (Vinit : List (ℚ × ℚ)) (is_ac : Bool) (h : m₁.reset = m₂.reset) :
    pre_process_solver yF sF m₁ Vinit is_ac = pre_process_solver yF sF m₂ Vinit is_ac := by
  unfold pre_process_solver
  rw [h]

theorem pre_process_flag (yF : YStamper) (sF : SStamper) (m : GridModel) (b : Bool)
    (Vinit : List (ℚ × ℚ)) (is_ac : Bool) :
    pre_process_solver yF sF { m with compute_results_flag := b } Vinit is_ac =
      ({ (pre_process_solver yF sF m Vinit is_ac).1 with compute_results_flag := b },
       (pre_process_solver yF sF m Vinit is_ac).2) := by
  cases m
  unfold pre_process_solver GridModel.reset
  dsimp only
  split <;> rfl

theorem ac_pf_snd_flag (yF : YStamper) (sF : SStamper) (cr : ResultProjector)
    (solver : PfSolver) (m : GridModel) (b : Bool) (Vinit : List (ℚ × ℚ))
    (max_iter : ℕ) (tol : ℚ) :
    (ac_pf yF sF cr solver { m with compute_results_flag := b } Vinit max_iter tol).2 =
      (ac_pf yF sF cr solver m Vinit max_iter tol).2 := by
  by_cases hc : Vinit.length ≠ m.bus_vn_kv.length
  · simp [ac_pf, hc]
  · have hsz : Vinit.length = m.bus_vn_kv.length := not_not.mp hc
    rcases hp : pre_process_solver yF sF m Vinit true with ⟨m', E⟩
    have hpb := pre_process_flag yF sF m b Vinit true
    rw [hp] at hpb
    cases E with
    | error e => simp [ac_pf, hsz, hp, hpb]
    | ok V =>
      rcases hS : solver m'.ybus V m'.sbus m'.bus_pv m'.bus_pq max_iter tol with _ | Vsol
      · simp [ac_pf, hsz, hp, hpb, hS]
      · rcases hG : gather_results m'.bus_status m'.id_me_to_solver Vsol with e | res
        · simp [ac_pf, hsz, hp, hpb, hS, hG]
        · simp [ac_pf, hsz, hp, hpb, hS, hG]

theorem ac_pf_snd_congr (yF : YStamper) (sF : SStamper) (cr : ResultProjector)
    (solver : PfSolver) (m₁ m₂ : GridModel) (Vinit : List (ℚ × ℚ)) (max_iter : ℕ) (tol : ℚ)
    (hvn : m₁.bus_vn_kv = m₂.bus_vn_kv) (hr : m₁.reset = m₂.reset) :
    (ac_pf yF sF cr solver m₁ Vinit max_iter tol).2 =
      (ac_pf yF sF cr solver m₂ Vinit max_iter tol).2 := by
  unfold ac_pf
  rw [hvn, pre_process_congr yF sF m₁ m₂ Vinit true hr]
  split <;> rfl

/-- The fields of the model that `set_state` leaves cleared after its
internal `reset()` (everything rebuilt by the next solve). -/
def clear_for_restore (m : GridModel) : GridModel :=
  { m with need_reset := true, ybus := [], sbus := [], id_me_to_solver := [],
           id_solver_to_me := [], slack_bus_id_solver := -1, bus_pv := [],
           bus_pq := [] }

/-- C4 (amended): restoring `set_state(get_state())` — the 8-component state
actually captured by GridModel.cpp: bus_vn_kv, bus_status, the
line/shunt/trafo/gen/load collection states and the slack generator id —
yields a model on which `ac_pf` with the same arguments returns the same
voltage vector, for every element stamping, result projection and solver
behaviour. -/
theorem set_get_state_ac_pf_roundtrip (yF : YStamper) (sF : SStamper) (cr : ResultProjector)
    (solver : PfSolver) (m : GridModel) (Vinit : List (ℚ × ℚ)) (max_iter : ℕ) (tol : ℚ) :
    (ac_pf yF sF cr solver (m.set_state m.get_state) Vinit max_iter tol).2 =
      (ac_pf yF sF cr solver m Vinit max_iter tol).2 := by
  have h1 : m.set_state m.get_state =
      { clear_for_restore m with compute_results_flag := true } := rfl
  rw [h1, ac_pf_snd_flag]
  exact ac_pf_snd_congr yF sF cr solver (clear_for_restore m) m Vinit max_iter tol rfl rfl
